import Mathlib

/-!
Shallow embedding of the core of `src/visualizer.cpp` (dual-OLED audio
visualizer): the MPD metadata client's text formatting, the audio capture
loop with its circular sample buffer and silence detector, the spectral
band aggregation and smoothing, the stereo phase/correlation analysis,
and the sleep/wake coordinator of the main loop.

Floating-point arithmetic of the source is modelled over `ℝ` (or `ℚ`
where the code only compares and clamps); machine integers are modelled
as `ℕ`/`ℤ` with explicit truncating division where it matters.
-/

namespace Visualizer

/-! ## Constants (AudioProcessor, lines 758-776) -/

def SAMPLE_RATE : ℕ := 44100

def FFT_SIZE_BASS : ℕ := 8192

/-- Capacity of the circular buffers: `FFT_SIZE_BASS * 2` (line 871). -/
def BUF_CAP : ℕ := FFT_SIZE_BASS * 2

def SLEEP_TIMEOUT_SEC : ℕ := 10

/-- Constant `SILENCE_THRESHOLD = 0.001f` (line 764). -/
def SILENCE_THRESHOLD : ℚ := 0.001

/-- One entry of `FREQ_BANDS` (lines 767-770): a `[low, high)` range in Hz
and a per-band correction gain. -/
structure FreqBand where
  low : ℕ
  high : ℕ
  correction : ℚ

/-- The table `FREQ_BANDS` (lines 772-776). -/
def FREQ_BANDS : Fin 7 → FreqBand :=
  ![⟨63, 120, 0.5⟩, ⟨120, 350, 1⟩, ⟨350, 900, 2⟩,
    ⟨900, 2000, 3.5⟩, ⟨2000, 5000, 5⟩,
    ⟨5000, 10000, 7⟩, ⟨10000, 16000, 10⟩]

/-- Index `low_idx = FREQ_BANDS[i].low * FFT_SIZE_BASS / SAMPLE_RATE` (line 992),
C++ integer (truncating) division. -/
def lowIdx (b : FreqBand) : ℕ := b.low * FFT_SIZE_BASS / SAMPLE_RATE

/-- Index `high_idx = FREQ_BANDS[i].high * FFT_SIZE_BASS / SAMPLE_RATE` (line 993). -/
def highIdx (b : FreqBand) : ℕ := b.high * FFT_SIZE_BASS / SAMPLE_RATE

/-- The divisor of the per-band RMS average: `high_idx - low_idx` (line 1002). -/
def binCount (b : FreqBand) : ℕ := highIdx b - lowIdx b

/-! ## Runtime parameters (lines 796-798, 861-867, 1122-1133) -/

/-- The two adjustable parameters of `AudioProcessor`: `sensitivity` and
`noise_reduction` (lines 796-797). -/
structure Params where
  sensitivity : ℚ
  noise_reduction : ℚ

/-- Initial values `noise_reduction = 77.0f`, `sensitivity = 100.0f`. -/
def initParams : Params := ⟨100, 77⟩

/-- Derived `integral_factor = (noise_reduction / 100) * 0.95` (lines 862-863). -/
def integralFactor (p : Params) : ℚ := p.noise_reduction / 100 * 0.95

/-- Derived `gravity_factor = max(1 - (noise_reduction / 100) * 0.8, 0.2)` (lines 864-865). -/
def gravityFactor (p : Params) : ℚ := max (1 - p.noise_reduction / 100 * 0.8) 0.2

/-- Derived `scale_factor = (sensitivity / 100) * 2.2` (line 866). -/
def scaleFactor (p : Params) : ℚ := p.sensitivity / 100 * 2.2

/-- Setter `setSensitivity` (lines 1122-1125): clamps the argument to `[10, 300]`. -/
def setSensitivity (p : Params) (value : ℤ) : Params :=
  { p with sensitivity := max 10 (min 300 (value : ℚ)) }

/-- Setter `setNoiseReduction` (lines 1127-1130): clamps the argument to `[0, 100]`. -/
def setNoiseReduction (p : Params) (value : ℤ) : Params :=
  { p with noise_reduction := max 0 (min 100 (value : ℚ)) }

/-- Stored parameters are inside their documented ranges. -/
def validParams (p : Params) : Prop :=
  10 ≤ p.sensitivity ∧ p.sensitivity ≤ 300 ∧
    0 ≤ p.noise_reduction ∧ p.noise_reduction ≤ 100

instance : DecidablePred validParams := fun _ => by
  unfold validParams; infer_instance

/-! ## MPD metadata client (MPDClient, lines 52-393) -/

/-- The four string fields guarded by `data_mutex` (lines 63-66). -/
structure SongFields where
  track_number : String
  title : String
  artist : String
  year : String
deriving DecidableEq

/-- The tags of the current MPD song as returned by the service:
0-based queue position plus optional title/artist/date tags
(`mpd_song_get_pos`, `mpd_song_get_tag`). -/
structure SongTags where
  pos : ℕ
  title : Option String
  artist : Option String
  date : Option String

/-- What `std::setfill('0') << std::setw(2)` does to the track-number
string (line 79): left-pad with zeros to width 2. -/
def padTo2 (s : String) : String :=
  if s.length < 2 then String.mk (List.replicate (2 - s.length) '0') ++ s else s

/-- Function `MPDClient::updateFormattedText` (lines 75-97), written as the same
sequence of stream appends the C++ performs. -/
def updateFormattedText (f : SongFields) : String :=
  let s0 : String := ""
  let s1 := s0 ++ (if f.track_number ≠ "" then padTo2 f.track_number ++ ". " else "")
  let s2 := s1 ++ (if f.title ≠ "" then f.title else "Unknown Title")
  let s3 := s2 ++ (if f.artist ≠ "" then " - " ++ f.artist else "")
  s3 ++ (if f.year ≠ "" then " (" ++ f.year ++ ")" else "")

/-- The field update of `MPDClient::updateCurrentSong` (lines 146-178):
when a song is present, track number is the 1-based position, missing
tags map to `""`, and the year is the first 4 characters of the date tag
when that tag has at least 4 characters; with no song the title becomes
`"No song playing"` and the other fields are cleared. -/
def updateCurrentSong (song : Option SongTags) : SongFields :=
  match song with
  | some s =>
      { track_number := toString (s.pos + 1)
        title := s.title.getD ""
        artist := s.artist.getD ""
        year :=
          match s.date with
          | some d => if 4 ≤ d.length then d.take 4 else ""
          | none => "" }
  | none => ⟨"", "No song playing", "", ""⟩

/-- The fields set by the `MPDClient` constructor (lines 296-307). -/
def initialFields : SongFields := ⟨"", "Waiting for MPD...", "", ""⟩

/-- Modelled from the claim's words: the display string with *every*
missing component, the title included, omitted together with its
separator. Used only to compare against `updateFormattedText`. -/
def claimFormat (f : SongFields) : String :=
  (if f.track_number ≠ "" then padTo2 f.track_number ++ ". " else "") ++
    ((if f.title ≠ "" then f.title else "") ++
      ((if f.artist ≠ "" then " - " ++ f.artist else "") ++
        (if f.year ≠ "" then " (" ++ f.year ++ ")" else "")))

/-- The amended formatting contract: like `claimFormat` but an empty
title is rendered as `"Unknown Title"` instead of being omitted. -/
def amendedFormat (f : SongFields) : String :=
  (if f.track_number ≠ "" then padTo2 f.track_number ++ ". " else "") ++
    ((if f.title ≠ "" then f.title else "Unknown Title") ++
      ((if f.artist ≠ "" then " - " ++ f.artist else "") ++
        (if f.year ≠ "" then " (" ++ f.year ++ ")" else "")))

/-! ## Power-state coordinator (VisualizerApp::run, lines 2054-2153) -/

/-- The sleep/wake state of the main loop together with invocation
counters for the mode switches it fans out: how many times
`audio.setSleepState(b)` and `mpd_client->setSleepState(b)` have been
called with `b = true` (entering sleep) and `b = false` (waking). -/
structure CoordState where
  sleeping : Bool
  audioSleepOn : ℕ
  audioSleepOff : ℕ
  mpdSleepOn : ℕ
  mpdSleepOff : ℕ
deriving DecidableEq

/-- One iteration of the sleep/wake logic of `VisualizerApp::run`
(lines 2058-2139): the audio-presence branch (lines 2060-2107) followed
by the wake-on-visualization-switch branch (lines 2110-2138). -/
def loopIter (hasAudio vizChange : Bool) (s : CoordState) : CoordState :=
  let s1 :=
    if !hasAudio && !s.sleeping then
      { s with sleeping := true,
               audioSleepOn := s.audioSleepOn + 1,
               mpdSleepOn := s.mpdSleepOn + 1 }
    else if hasAudio && s.sleeping then
      { s with sleeping := false,
               audioSleepOff := s.audioSleepOff + 1,
               mpdSleepOff := s.mpdSleepOff + 1 }
    else s
  if vizChange && s1.sleeping then
    { s1 with sleeping := false,
              audioSleepOff := s1.audioSleepOff + 1,
              mpdSleepOff := s1.mpdSleepOff + 1 }
  else s1

/-! ## Capture loop and circular buffer (audioThreadFunc, lines 810-859,
checkForAudio, lines 961-965, getWaveformData, lines 1070-1078)

Time is modelled in milliseconds (`steady_clock` instants as `ℕ`);
`duration_cast<seconds>` is the truncating division by 1000. -/

/-- The mutable state of `AudioProcessor` touched by the capture thread:
the two circular buffers with their shared write cursor, the running
peak amplitude, the last-active timestamp and the sleep flag. -/
structure CaptureState where
  bufL : ℕ → ℚ
  bufR : ℕ → ℚ
  writePos : ℕ
  maxAmplitude : ℚ
  lastAudioTime : ℕ
  sleeping : Bool

/-- Block size chosen at the top of each capture iteration (line 815):
256 frames while asleep, `FRAMES_PER_BUFFER = 2048` otherwise. -/
def readSize (s : CaptureState) : ℕ := if s.sleeping then 256 else 2048

/-- Normalization of one signed 16-bit sample: `v / 32768.0f` (line 840). -/
def normalize (v : ℤ) : ℚ := (v : ℚ) / 32768

/-- Peak of a block of interleaved stereo int16 frames: the running
`frame_max` over `|sample| / 32768` of both channels (lines 825-827 and
840-845). -/
def blockPeak (block : List (ℤ × ℤ)) : ℚ :=
  block.foldl (fun m p => max m (max |normalize p.1| |normalize p.2|)) 0

/-- Store one decoded frame at the write cursor and advance it modulo
`BUF_CAP` (lines 839-848, loop body). -/
def writeFrame (s : CaptureState) (x : ℚ × ℚ) : CaptureState :=
  { s with
    bufL := Function.update s.bufL s.writePos x.1
    bufR := Function.update s.bufR s.writePos x.2
    writePos := (s.writePos + 1) % BUF_CAP }

/-- Store a sequence of decoded frames (the whole `for` loop of
lines 839-848). -/
def writeFrames (s : CaptureState) (l : List (ℚ × ℚ)) : CaptureState :=
  l.foldl writeFrame s

/-- One iteration of `audioThreadFunc` (lines 813-856) on a successfully
read block, at time `now`: while asleep only the peak amplitude and the
last-active timestamp are updated; while awake every frame is also
written into the circular buffers. -/
def audioIter (s : CaptureState) (now : ℕ) (block : List (ℤ × ℤ)) : CaptureState :=
  let peak := blockPeak block
  if s.sleeping then
    { s with
      maxAmplitude := peak
      lastAudioTime := if SILENCE_THRESHOLD < peak then now else s.lastAudioTime }
  else
    let s1 := writeFrames s (block.map fun p => (normalize p.1, normalize p.2))
    { s1 with
      maxAmplitude := peak
      lastAudioTime := if SILENCE_THRESHOLD < peak then now else s.lastAudioTime }

/-- Function `AudioProcessor::checkForAudio` (lines 961-965): elapsed whole
seconds since `last_audio_time`, compared against `SLEEP_TIMEOUT_SEC`. -/
def checkForAudio (now : ℕ) (s : CaptureState) : Bool :=
  decide ((now - s.lastAudioTime) / 1000 < SLEEP_TIMEOUT_SEC)

/-- Function `AudioProcessor::getWaveformData` (lines 1070-1078): copy the most
recent `count` samples of one channel, oldest first, starting at
`(write_pos + BUF_CAP - count) % BUF_CAP`. -/
def getWaveformData (s : CaptureState) (count : ℕ) (leftChannel : Bool) : List ℚ :=
  (List.range count).map fun i =>
    (if leftChannel then s.bufL else s.bufR) ((s.writePos + BUF_CAP - count + i) % BUF_CAP)

/-! ## Spectral band aggregation and smoothing (getSpectrumData,
lines 967-1054)

The FFT itself is performed by fftw; its output enters the band
aggregation only through the per-bin magnitudes
`mag j = sqrt(re j ^ 2 + im j ^ 2)`, so a channel's spectrum is modelled
as the function `mag : ℕ → ℝ` of bin magnitudes. -/

/-- C++ `(int)` cast of a float: truncation toward zero. -/
noncomputable def truncToInt (x : ℝ) : ℤ := if 0 ≤ x then ⌊x⌋ else ⌈x⌉

/-- Raw level of one band (lines 991-1003): sum `mag j ^ 2` over the bins
of the band (capped at `FFT_SIZE_BASS / 2`), divide by the bin count,
take the square root, scale by `scale_factor` and the band correction. -/
noncomputable def bandRaw (mag : ℕ → ℝ) (scale : ℝ) (b : FreqBand) : ℝ :=
  let sum := ∑ j ∈ Finset.Ico (lowIdx b) (min (highIdx b) (FFT_SIZE_BASS / 2)),
    mag j * mag j
  Real.sqrt (sum / (binCount b : ℝ)) * scale * (b.correction : ℝ)

/-- The attack/decay smoothing of one band (lines 1027-1046): blend the
raw level with the previous one by `integral_factor`; on a fall, decay
the previous level toward the blend at rate `gravity_factor`, never
below the blend; on a rise adopt the blend. Returns the new previous
level. -/
noncomputable def smoothLevel (integral gravity prev raw : ℝ) : ℝ :=
  let s := integral * prev + (1 - integral) * raw
  if s < prev then max (prev - (prev - s) * gravity) s else s

/-- Final per-band output (lines 1048-1049):
`min(255, max(0, (int)smoothed))`. -/
noncomputable def levelOut (x : ℝ) : ℤ := min 255 (max 0 (truncToInt x))

/-- One channel of `getSpectrumData` (lines 991-1050): per band, the raw
level, the smoothing against the previous level, and the clamped
integer output. Returns the 7 outputs and the 7 new previous levels. -/
noncomputable def getSpectrumChannel (mag : ℕ → ℝ) (scale integral gravity : ℝ)
    (prev : Fin 7 → ℝ) : (Fin 7 → ℤ) × (Fin 7 → ℝ) :=
  let newPrev : Fin 7 → ℝ := fun i =>
    smoothLevel integral gravity (prev i) (bandRaw mag scale (FREQ_BANDS i))
  (fun i => levelOut (newPrev i), newPrev)

/-! ## Stereo analysis (getStereoAnalysis, lines 1080-1120)

The 512-sample window snapshotted from the circular buffers is modelled
as a pair of functions `Fin 512 → ℝ`. -/

/-- Constant `ANALYSIS_SAMPLES = 512` (line 1081). -/
def ANALYSIS_SAMPLES : ℕ := 512

/-- Model of `atan2f(y, x)`: the argument of the complex number `x + y i`. -/
noncomputable def atan2 (y x : ℝ) : ℝ := Complex.arg ⟨x, y⟩

/-- A sample is counted into the phase sum when both channels exceed the
magnitude floor: `|left[i]| > 0.01 && |right[i]| > 0.01` (line 1098). -/
def qualifies (left right : Fin 512 → ℝ) (i : Fin 512) : Prop :=
  0.01 < |left i| ∧ 0.01 < |right i|

noncomputable instance (left right : Fin 512 → ℝ) :
    DecidablePred (qualifies left right) := fun _ => by
  unfold qualifies; infer_instance

/-- The phase of `getStereoAnalysis` (lines 1095-1102): accumulate
`atan2(right[i], left[i])` over the qualifying samples and divide by
`ANALYSIS_SAMPLES` (the whole window size, not the qualifying count). -/
noncomputable def phaseOf (left right : Fin 512 → ℝ) : ℝ :=
  (∑ i, if qualifies left right i then atan2 (right i) (left i) else 0) /
    (ANALYSIS_SAMPLES : ℝ)

/-- Modelled from the claim's words: the arithmetic mean of
`atan2(right[i], left[i])` over the qualifying samples only, and 0 when
no sample qualifies. Used only to compare against `phaseOf`. -/
noncomputable def claimPhaseMean (left right : Fin 512 → ℝ) : ℝ :=
  let q := Finset.univ.filter (qualifies left right)
  if q.card = 0 then 0 else (∑ i ∈ q, atan2 (right i) (left i)) / (q.card : ℝ)

/-- The correlation of `getStereoAnalysis` (lines 1104-1119): the
running sums, the numerator `n·Σlr - Σl·Σr`, the denominator
`sqrt((n·Σl² - (Σl)²)(n·Σr² - (Σr)²))`, zero when the denominator is
not positive, and the final clamp to `[-1, 1]`. -/
noncomputable def correlationOf (left right : Fin 512 → ℝ) : ℝ :=
  let n : ℝ := 512
  let sl := ∑ i, left i
  let sr := ∑ i, right i
  let slr := ∑ i, left i * right i
  let sl2 := ∑ i, left i * left i
  let sr2 := ∑ i, right i * right i
  let num := n * slr - sl * sr
  let den := Real.sqrt ((n * sl2 - sl * sl) * (n * sr2 - sr * sr))
  let c := if 0 < den then num / den else 0
  max (-1) (min 1 c)

/-- Mean of a channel over the window. -/
noncomputable def meanOf (f : Fin 512 → ℝ) : ℝ := (∑ i, f i) / 512

/-- Sum of centered cross products of the two channels. -/
noncomputable def covSum (left right : Fin 512 → ℝ) : ℝ :=
  ∑ i, (left i - meanOf left) * (right i - meanOf right)

/-- Sum of centered squares of one channel (the variance, up to the
constant factor `512`, of the window). -/
noncomputable def varSum (f : Fin 512 → ℝ) : ℝ :=
  ∑ i, (f i - meanOf f) * (f i - meanOf f)

/-- Modelled from the spec's words: the Pearson correlation coefficient
of the two channels over the window, defined as 0 when the product of
variances vanishes. Used only to compare against `correlationOf`. -/
noncomputable def pearson (left right : Fin 512 → ℝ) : ℝ :=
  if varSum left * varSum right = 0 then 0
  else covSum left right / Real.sqrt (varSum left * varSum right)

/-! ## Concrete states used to instantiate the theorems -/

/-- A capture state that is awake, with empty buffers, cursor at 0 and
last-active timestamp 0. -/
def exAwakeCapture : CaptureState := ⟨fun _ => 0, fun _ => 0, 0, 0, 0, false⟩

/-- The same state, asleep. -/
def exAsleepCapture : CaptureState := ⟨fun _ => 0, fun _ => 0, 0, 0, 0, true⟩

/-- The coordinator state at startup: awake, no mode switches issued yet. -/
def exCoordStart : CoordState := ⟨false, 0, 0, 0, 0⟩

/-- A stereo window whose first sample is 1 on both channels and whose
remaining 511 samples are silent: exactly one sample qualifies for the
phase sum. -/
def exWindow : Fin 512 → ℝ := fun i => if i = 0 then 1 else 0

/-! # Theorems -/

/-! ## C3: no zero-bin band among the 7 configured bands -/

/-- C3: for each of the 7 configured frequency bands the `[low, high)`
range maps to a nonempty range of FFT bin indices, so the divisor
`high_idx - low_idx` of the per-band average in `getSpectrumData` is
nonzero: the unguarded division never divides by zero. -/
theorem freqBands_no_zero_bins :
    ∀ i : Fin 7, lowIdx (FREQ_BANDS i) < highIdx (FREQ_BANDS i) ∧
      0 < binCount (FREQ_BANDS i) := by decide

/-! ## C10: parameter clamping and derived-factor ranges -/

/-- C10: `setSensitivity` clamps the stored sensitivity into `[10, 300]`
and `setNoiseReduction` clamps the stored noise reduction into
`[0, 100]` (each leaving the other field untouched, and both preserving
validity, which also holds initially), and for every valid parameter
state the derived `integral_factor` lies in `[0, 0.95]`,
`gravity_factor` in `[0.2, 1.0]` and `scale_factor` in `[0.22, 6.6]`. -/
theorem params_clamped (p : Params) (v : ℤ) (hp : validParams p) :
    (10 ≤ (setSensitivity p v).sensitivity ∧ (setSensitivity p v).sensitivity ≤ 300) ∧
    (0 ≤ (setNoiseReduction p v).noise_reduction ∧
      (setNoiseReduction p v).noise_reduction ≤ 100) ∧
    validParams (setSensitivity p v) ∧ validParams (setNoiseReduction p v) ∧
    validParams initParams ∧
    (0 ≤ integralFactor p ∧ integralFactor p ≤ 0.95) ∧
    (0.2 ≤ gravityFactor p ∧ gravityFactor p ≤ 1) ∧
    (0.22 ≤ scaleFactor p ∧ scaleFactor p ≤ 6.6) := by
  obtain ⟨hs1, hs2, hn1, hn2⟩ := hp
  have sensLo : (10:ℚ) ≤ max 10 (min 300 (v:ℚ)) := le_max_left _ _
  have sensHi : max 10 (min 300 (v:ℚ)) ≤ 300 :=
    max_le (by norm_num) (min_le_left _ _)
  have nrLo : (0:ℚ) ≤ max 0 (min 100 (v:ℚ)) := le_max_left _ _
  have nrHi : max 0 (min 100 (v:ℚ)) ≤ 100 :=
    max_le (by norm_num) (min_le_left _ _)
  refine ⟨⟨sensLo, sensHi⟩, ⟨nrLo, nrHi⟩, ⟨sensLo, sensHi, hn1, hn2⟩,
    ⟨hs1, hs2, nrLo, nrHi⟩, by norm_num [validParams, initParams], ?_, ?_, ?_⟩
  · constructor
    · unfold integralFactor; positivity
    · unfold integralFactor; linarith
  · refine ⟨le_max_right _ _, max_le (by linarith) (by norm_num)⟩
  · constructor
    · unfold scaleFactor; linarith
    · unfold scaleFactor; linarith

/-- Instantiation of `params_clamped` at the initial parameters. -/
theorem params_clamped_witness :
    validParams initParams ∧
      (0 ≤ integralFactor initParams ∧ integralFactor initParams ≤ 0.95) :=
  ⟨by norm_num [validParams, initParams],
    (params_clamped initParams 0 (by norm_num [validParams, initParams])).2.2.2.2.2.1⟩

/-! ## C9: an asleep capture iteration does not touch the ring buffer -/

/-- C9: while asleep, a capture iteration reads the smaller block size
(256 frames instead of 2048) and leaves both circular buffers, the
write cursor and the sleep flag unchanged; only the peak amplitude and
the last-active timestamp are recomputed. -/
theorem asleep_iter_keeps_buffer (s : CaptureState) (now : ℕ)
    (block : List (ℤ × ℤ)) (h : s.sleeping = true) :
    readSize s = 256 ∧
    (audioIter s now block).bufL = s.bufL ∧
    (audioIter s now block).bufR = s.bufR ∧
    (audioIter s now block).writePos = s.writePos ∧
    (audioIter s now block).sleeping = s.sleeping := by
  simp [readSize, audioIter, h]

/-- Instantiation of `asleep_iter_keeps_buffer` at a concrete asleep
state and block. -/
theorem asleep_iter_keeps_buffer_witness :
    exAsleepCapture.sleeping = true ∧
      (audioIter exAsleepCapture 5 [(100, 200)]).writePos = exAsleepCapture.writePos :=
  ⟨rfl, (asleep_iter_keeps_buffer exAsleepCapture 5 [(100, 200)] rfl).2.2.2.1⟩

/-! ## C7: silence detection -/

/-- C7: `checkForAudio` returns `true` exactly when less than 10 seconds
(10000 ms) have elapsed since the last-active timestamp, and on every
capture iteration — asleep or awake — the last-active timestamp is set
to the current time exactly when the block's peak amplitude exceeds
`SILENCE_THRESHOLD` (and is kept otherwise). -/
theorem checkForAudio_correct (now : ℕ) (s : CaptureState) (block : List (ℤ × ℤ)) :
    (checkForAudio now s = true ↔ now - s.lastAudioTime < 10000) ∧
    (audioIter s now block).lastAudioTime =
      (if SILENCE_THRESHOLD < blockPeak block then now else s.lastAudioTime) := by
  constructor
  · simp only [checkForAudio, SLEEP_TIMEOUT_SEC, decide_eq_true_eq]
    omega
  · by_cases hs : s.sleeping <;> simp [audioIter, hs, writeFrames]

/-! ## C6: edge-triggered, idempotent sleep transition -/

/-- Repeating the coordinator iteration on an already-asleep state with
audio absent changes nothing. -/
theorem loopIter_asleep_fixed (s : CoordState) (h : s.sleeping = true) :
    loopIter false false s = s := by
  simp [loopIter, h]

/-- Iterating the coordinator on an asleep state is the identity. -/
theorem loopIter_asleep_iterate (m : ℕ) (s : CoordState) (h : s.sleeping = true) :
    (loopIter false false)^[m] s = s := by
  induction m with
  | zero => rfl
  | succ k ih => rw [Function.iterate_succ_apply, loopIter_asleep_fixed s h, ih]

/-- C6: starting awake, any positive number of coordinator evaluations
with audio absent equals a single evaluation: the state becomes asleep,
the sleep-mode switch is invoked exactly once on the capture engine and
exactly once on the metadata client, and no wake switch is invoked. -/
theorem sleep_transition_once (n : ℕ) (s : CoordState) (hn : 1 ≤ n)
    (hs : s.sleeping = false) :
    (loopIter false false)^[n] s = loopIter false false s ∧
    ((loopIter false false)^[n] s).sleeping = true ∧
    ((loopIter false false)^[n] s).audioSleepOn = s.audioSleepOn + 1 ∧
    ((loopIter false false)^[n] s).mpdSleepOn = s.mpdSleepOn + 1 ∧
    ((loopIter false false)^[n] s).audioSleepOff = s.audioSleepOff ∧
    ((loopIter false false)^[n] s).mpdSleepOff = s.mpdSleepOff := by
  obtain ⟨m, rfl⟩ : ∃ m, n = m + 1 := ⟨n - 1, by omega⟩
  have h1 : loopIter false false s =
      { s with sleeping := true,
               audioSleepOn := s.audioSleepOn + 1,
               mpdSleepOn := s.mpdSleepOn + 1 } := by
    simp [loopIter, hs]
  have h2 : (loopIter false false)^[m + 1] s = loopIter false false s := by
    rw [Function.iterate_succ_apply]
    exact loopIter_asleep_iterate m _ (by rw [h1])
  rw [h2, h1]
  exact ⟨rfl, rfl, rfl, rfl, rfl, rfl⟩

/-- Instantiation of `sleep_transition_once`: three silent evaluations
from the start state produce exactly one sleep transition. -/
theorem sleep_transition_once_witness :
    ((loopIter false false)^[3] exCoordStart).sleeping = true ∧
      ((loopIter false false)^[3] exCoordStart).audioSleepOn = exCoordStart.audioSleepOn + 1 ∧
      ((loopIter false false)^[3] exCoordStart).mpdSleepOn = exCoordStart.mpdSleepOn + 1 :=
  ⟨(sleep_transition_once 3 exCoordStart (by norm_num) rfl).2.1,
    (sleep_transition_once 3 exCoordStart (by norm_num) rfl).2.2.1,
    (sleep_transition_once 3 exCoordStart (by norm_num) rfl).2.2.2.1⟩

/-! ## C5: band levels are integers in [0, 255] -/

/-- The final clamp of one band level lands in `[0, 255]`. -/
theorem levelOut_range (x : ℝ) : 0 ≤ levelOut x ∧ levelOut x ≤ 255 :=
  ⟨le_min (by norm_num) (le_max_left _ _), min_le_left _ _⟩

/-- C5: for every input spectrum, every parameter setting and every
prior smoothing state, each of the 7 per-channel levels produced by
`getSpectrumChannel` (either channel of `getSpectrumData`) is an
integer in `[0, 255]`. -/
theorem spectrum_levels_in_range (mag : ℕ → ℝ) (scale integral gravity : ℝ)
    (prev : Fin 7 → ℝ) (i : Fin 7) :
    0 ≤ (getSpectrumChannel mag scale integral gravity prev).1 i ∧
      (getSpectrumChannel mag scale integral gravity prev).1 i ≤ 255 :=
  levelOut_range _

/-! ## C2: the formatted metadata string -/

/-- C2 counterexample: for a song with a position but no title, artist or
date tag — fields `("1", "", "", "")` — the code renders
`"01. Unknown Title"`, not the `"01. "` demanded by omitting every
missing component with its separator; and for a song whose date tag
`"19"` is present but shorter than 4 characters, the code stores an
empty year, not the first (at most) 4 characters `"19"`. -/
theorem formatted_text_counterexample :
    updateFormattedText (updateCurrentSong (some ⟨0, none, none, none⟩)) ≠
      claimFormat (updateCurrentSong (some ⟨0, none, none, none⟩)) ∧
    (updateCurrentSong (some ⟨0, some "T", none, some "19"⟩)).year ≠ "19" := by
  constructor <;> decide

/-- C2 amended: the display string is `"NN. Title - Artist (Year)"`
where missing track number, artist and year are omitted together with
their separators but an empty title is rendered as `"Unknown Title"`;
the track number is the 1-based song position zero-padded to 2 digits,
the year is the first 4 characters of the date tag when that tag has at
least 4 characters (and empty otherwise), the title is
`"No song playing"` when no track is active, and `"Waiting for MPD..."`
in the constructor-initialized state shown before the first successful
fetch. -/
theorem formatted_text_amended (f : SongFields) (s : SongTags) :
    updateFormattedText f = amendedFormat f ∧
    (updateCurrentSong (some s)).track_number = toString (s.pos + 1) ∧
    (updateCurrentSong (some s)).year =
      (match s.date with
       | some d => if 4 ≤ d.length then d.take 4 else ""
       | none => "") ∧
    (updateCurrentSong none).title = "No song playing" ∧
    initialFields.title = "Waiting for MPD..." := by
  refine ⟨?_, rfl, rfl, rfl, rfl⟩
  simp only [updateFormattedText, amendedFormat, String.empty_append, String.append_assoc]

/-! ## C8: circular-buffer round trip -/

theorem bufCap_eq : BUF_CAP = 16384 := rfl

theorem writeFrames_cons (s : CaptureState) (x : ℚ × ℚ) (t : List (ℚ × ℚ)) :
    writeFrames s (x :: t) = writeFrames (writeFrame s x) t := rfl

/-- Writing frames never touches a cell outside the window of cells the
write cursor passes over. -/
theorem writeFrames_untouched (l : List (ℚ × ℚ)) (s : CaptureState) (q : ℕ)
    (hs : s.writePos < BUF_CAP)
    (h : ∀ j < l.length, (s.writePos + j) % BUF_CAP ≠ q) :
    (writeFrames s l).bufL q = s.bufL q ∧ (writeFrames s l).bufR q = s.bufR q := by
  induction l generalizing s with
  | nil => exact ⟨rfl, rfl⟩
  | cons x t ih =>
      rw [writeFrames_cons]
      have hs' : (writeFrame s x).writePos < BUF_CAP := by
        simp only [writeFrame]
        exact Nat.mod_lt _ (by rw [bufCap_eq]; omega)
      have h' : ∀ j < t.length, ((writeFrame s x).writePos + j) % BUF_CAP ≠ q := by
        intro j hj
        have hh := h (j + 1) (by simp only [List.length_cons]; omega)
        simp only [writeFrame, Nat.mod_add_mod]
        rwa [show s.writePos + 1 + j = s.writePos + (j + 1) by omega]
      have hq : q ≠ s.writePos := by
        have h0 := h 0 (by simp only [List.length_cons]; omega)
        rw [Nat.add_zero, Nat.mod_eq_of_lt hs] at h0
        exact fun he => h0 he.symm
      obtain ⟨ihl, ihr⟩ := ih (writeFrame s x) hs' h'
      rw [ihl, ihr]
      simp only [writeFrame]
      exact ⟨Function.update_noteq hq _ _, Function.update_noteq hq _ _⟩

/-- Reading back a cell the write cursor stored into yields the stored
frame, as long as the write run is no longer than the capacity. -/
theorem writeFrames_stored (l : List (ℚ × ℚ)) (s : CaptureState) (i : ℕ)
    (hs : s.writePos < BUF_CAP) (hl : l.length ≤ BUF_CAP) (hi : i < l.length) :
    (writeFrames s l).bufL ((s.writePos + i) % BUF_CAP) = (l.get ⟨i, hi⟩).1 ∧
      (writeFrames s l).bufR ((s.writePos + i) % BUF_CAP) = (l.get ⟨i, hi⟩).2 := by
  induction l generalizing s i with
  | nil => exact absurd hi (by simp)
  | cons x t ih =>
      rw [writeFrames_cons]
      have hs' : (writeFrame s x).writePos < BUF_CAP := by
        simp only [writeFrame]
        exact Nat.mod_lt _ (by rw [bufCap_eq]; omega)
      have hlt : t.length + 1 ≤ BUF_CAP := by
        simpa only [List.length_cons] using hl
      cases i with
      | zero =>
          rw [Nat.add_zero, Nat.mod_eq_of_lt hs]
          have h' : ∀ j < t.length, ((writeFrame s x).writePos + j) % BUF_CAP ≠ s.writePos := by
            intro j hj
            simp only [writeFrame, Nat.mod_add_mod]
            rw [bufCap_eq] at *
            omega
          obtain ⟨hul, hur⟩ := writeFrames_untouched t (writeFrame s x) s.writePos hs' h'
          rw [hul, hur]
          simp only [writeFrame, List.get]
          exact ⟨Function.update_same _ _ _, Function.update_same _ _ _⟩
      | succ i' =>
          have hi' : i' < t.length := by
            simp only [List.length_cons] at hi; omega
          obtain ⟨ihl, ihr⟩ := ih (writeFrame s x) i' hs' (by omega) hi'
          have hidx : ((writeFrame s x).writePos + i') % BUF_CAP =
              (s.writePos + (i' + 1)) % BUF_CAP := by
            simp only [writeFrame, Nat.mod_add_mod]
            rw [show s.writePos + 1 + i' = s.writePos + (i' + 1) by omega]
          rw [hidx] at ihl ihr
          exact ⟨ihl, ihr⟩

/-- The write cursor advances by the number of frames written, modulo
the capacity. -/
theorem writeFrames_writePos (l : List (ℚ × ℚ)) (s : CaptureState)
    (hs : s.writePos < BUF_CAP) :
    (writeFrames s l).writePos = (s.writePos + l.length) % BUF_CAP := by
  induction l generalizing s with
  | nil => simp [writeFrames, Nat.mod_eq_of_lt hs]
  | cons x t ih =>
      rw [writeFrames_cons]
      have hs' : (writeFrame s x).writePos < BUF_CAP := by
        simp only [writeFrame]
        exact Nat.mod_lt _ (by rw [bufCap_eq]; omega)
      rw [ih (writeFrame s x) hs']
      simp only [writeFrame, Nat.mod_add_mod, List.length_cons]
      rw [show s.writePos + 1 + t.length = s.writePos + (t.length + 1) by omega]

/-- C8: writing any sequence of fewer frames than the capacity
(`2 × 8192`) and snapshotting the same length via `getWaveformData`
returns the sequence unmodified, oldest frame first, on each channel. -/
theorem ringBuffer_roundtrip (s : CaptureState) (l : List (ℚ × ℚ))
    (hs : s.writePos < BUF_CAP) (hl : l.length < BUF_CAP) :
    getWaveformData (writeFrames s l) l.length true = l.map Prod.fst ∧
      getWaveformData (writeFrames s l) l.length false = l.map Prod.snd := by
  have hpos := writeFrames_writePos l s hs
  have hidx : ∀ i < l.length,
      ((writeFrames s l).writePos + BUF_CAP - l.length + i) % BUF_CAP =
        (s.writePos + i) % BUF_CAP := by
    intro i hi
    rw [hpos, bufCap_eq] at *
    omega
  constructor <;>
    · apply List.ext_get (by simp [getWaveformData])
      intro n h1 h2
      simp only [getWaveformData, List.get_map, List.get_range, if_true, if_false,
        Bool.false_eq_true, ite_true, ite_false]
      have hn : n < l.length := by simpa [getWaveformData] using h1
      rw [hidx n hn]
      first
        | exact (writeFrames_stored l s n hs (le_of_lt hl) hn).1
        | exact (writeFrames_stored l s n hs (le_of_lt hl) hn).2

/-! ## C1: stereo phase -/

/-- The phase angle of the qualifying sample `(1, 1)` is not zero. -/
theorem atan2_one_one_ne_zero : atan2 1 1 ≠ 0 := by
  rw [atan2]
  intro h
  have h2 := (Complex.arg_eq_zero_iff.mp h).2
  have h3 : (1 : ℝ) = 0 := h2
  norm_num at h3

/-- C1 counterexample: on the window `exWindow` (one qualifying sample
out of 512) the phase computed by the code is `atan2(1,1) / 512`, not
the arithmetic mean `atan2(1,1)` over the qualifying samples: the code
divides the phase sum by the window size, not by the qualifying count. -/
theorem phase_counterexample :
    phaseOf exWindow exWindow ≠ claimPhaseMean exWindow exWindow := by
  have hsummand : ∀ i : Fin 512,
      (if qualifies exWindow exWindow i then atan2 (exWindow i) (exWindow i) else 0) =
        if i = 0 then atan2 1 1 else 0 := by
    intro i
    by_cases hi : i = 0
    · subst hi
      rw [if_pos rfl, if_pos]
      · simp [exWindow]
      · constructor <;> · simp [qualifies, exWindow]; norm_num
    · rw [if_neg hi, if_neg]
      simp only [qualifies, exWindow, if_neg hi]
      norm_num
  have hsum : (∑ i, if qualifies exWindow exWindow i then
      atan2 (exWindow i) (exWindow i) else 0) = atan2 1 1 := by
    rw [Finset.sum_congr rfl fun i _ => hsummand i]
    rw [Finset.sum_ite_eq' Finset.univ (0 : Fin 512) fun _ => atan2 1 1]
    simp
  have hfilter : Finset.univ.filter (qualifies exWindow exWindow) = {0} := by
    ext i
    simp only [Finset.mem_filter, Finset.mem_univ, true_and, Finset.mem_singleton]
    constructor
    · intro hq
      by_contra hi
      simp only [qualifies, exWindow, if_neg hi] at hq
      norm_num at hq
    · intro hi
      subst hi
      constructor <;> · simp [qualifies, exWindow]; norm_num
  have hphase : phaseOf exWindow exWindow = atan2 1 1 / 512 := by
    rw [phaseOf, hsum]
    norm_num [ANALYSIS_SAMPLES]
  have hclaim : claimPhaseMean exWindow exWindow = atan2 1 1 := by
    simp only [claimPhaseMean, hfilter, Finset.card_singleton]
    norm_num
    simp [exWindow]
  rw [hphase, hclaim]
  intro h
  exact atan2_one_one_ne_zero (by linarith)

/-- C1 amended: the phase returned by `getStereoAnalysis` is the *sum*
of `atan2(right[i], left[i])` over the samples where both channels
exceed the magnitude floor 0.01, divided by the window size 512 (not by
the qualifying count); in particular the phase is 0 when no sample
qualifies. -/
theorem phase_amended (left right : Fin 512 → ℝ) :
    phaseOf left right =
      (∑ i ∈ Finset.univ.filter (qualifies left right), atan2 (right i) (left i)) / 512 ∧
    ((∀ i, ¬ qualifies left right i) → phaseOf left right = 0) := by
  constructor
  · rw [phaseOf, Finset.sum_filter]
    norm_num [ANALYSIS_SAMPLES]
  · intro hq
    rw [phaseOf, Finset.sum_eq_zero fun i _ => if_neg (hq i)]
    simp

/-- Instantiation of `phase_amended` on the all-silent window, where no
sample qualifies. -/
theorem phase_amended_witness : phaseOf (fun _ => 0) (fun _ => 0) = 0 :=
  (phase_amended _ _).2 fun i => by simp [qualifies]; norm_num

/-! ## C4: stereo correlation is the (clamped) Pearson coefficient -/

/-- Expansion of a centered product sum over the 512-sample window. -/
theorem centered_sum (f g : Fin 512 → ℝ) :
    ∑ i, (f i - meanOf f) * (g i - meanOf g) =
      (∑ i, f i * g i) - (∑ i, f i) * (∑ i, g i) / 512 := by
  have expand : ∀ i : Fin 512, (f i - meanOf f) * (g i - meanOf g) =
      f i * g i - meanOf f * g i - meanOf g * f i + meanOf f * meanOf g := by
    intro i; ring
  rw [Finset.sum_congr rfl fun i _ => expand i]
  rw [Finset.sum_add_distrib, Finset.sum_sub_distrib, Finset.sum_sub_distrib,
    ← Finset.mul_sum, ← Finset.mul_sum, Finset.sum_const, Finset.card_univ]
  simp only [Fintype.card_fin, nsmul_eq_mul, meanOf]
  push_cast
  field_simp
  ring

/-- The code's correlation numerator is `512` times the centered
covariance sum. -/
theorem n_mul_covSum (l r : Fin 512 → ℝ) :
    512 * covSum l r = 512 * (∑ i, l i * r i) - (∑ i, l i) * (∑ i, r i) := by
  have h := centered_sum l r
  unfold covSum
  linear_combination (512 : ℝ) * h

/-- Each factor under the code's square root is `512` times the centered
variance sum. -/
theorem n_mul_varSum (f : Fin 512 → ℝ) :
    512 * varSum f = 512 * (∑ i, f i * f i) - (∑ i, f i) * (∑ i, f i) :=
  n_mul_covSum f f

theorem varSum_nonneg (f : Fin 512 → ℝ) : 0 ≤ varSum f :=
  Finset.sum_nonneg fun i _ => mul_self_nonneg _

/-- Cauchy–Schwarz for the centered window sums. -/
theorem covSum_sq_le (l r : Fin 512 → ℝ) :
    covSum l r ^ 2 ≤ varSum l * varSum r := by
  unfold covSum varSum
  have h := Finset.sum_mul_sq_le_sq_mul_sq Finset.univ
    (fun i => l i - meanOf l) (fun i => r i - meanOf r)
  have e1 : (∑ i, (l i - meanOf l) * (l i - meanOf l)) = ∑ i, (l i - meanOf l) ^ 2 :=
    Finset.sum_congr rfl fun i _ => by ring
  have e2 : (∑ i, (r i - meanOf r) * (r i - meanOf r)) = ∑ i, (r i - meanOf r) ^ 2 :=
    Finset.sum_congr rfl fun i _ => by ring
  rw [e1, e2]
  exact h

/-- The code's correlation, rewritten through the centered sums. -/
theorem correlationOf_eq (l r : Fin 512 → ℝ) :
    correlationOf l r = max (-1) (min 1
      (if 0 < Real.sqrt ((512 * varSum l) * (512 * varSum r)) then
        (512 * covSum l r) / Real.sqrt ((512 * varSum l) * (512 * varSum r)) else 0)) := by
  simp only [correlationOf]
  rw [← n_mul_covSum l r, ← n_mul_varSum l, ← n_mul_varSum r]

/-- C4: for every 512-sample window, the correlation returned by
`getStereoAnalysis` equals the Pearson correlation coefficient of the
two channels (as defined by `pearson`, with value 0 when the product of
variances vanishes), it is 0 whenever that product is zero, and it
always lies in `[-1, 1]`. -/
theorem correlation_pearson (left right : Fin 512 → ℝ) :
    correlationOf left right = pearson left right ∧
    (varSum left * varSum right = 0 → correlationOf left right = 0) ∧
    -1 ≤ correlationOf left right ∧ correlationOf left right ≤ 1 := by
  have hD : Real.sqrt ((512 * varSum left) * (512 * varSum right)) =
      512 * Real.sqrt (varSum left * varSum right) := by
    rw [show (512 * varSum left) * (512 * varSum right) =
      512 ^ 2 * (varSum left * varSum right) by ring]
    rw [Real.sqrt_mul (by positivity), Real.sqrt_sq (by norm_num)]
  rw [correlationOf_eq, hD, pearson]
  by_cases hP : varSum left * varSum right = 0
  · rw [if_pos hP, hP, Real.sqrt_zero, mul_zero]
    norm_num
  · have hPpos : 0 < varSum left * varSum right :=
      lt_of_le_of_ne (mul_nonneg (varSum_nonneg left) (varSum_nonneg right)) (Ne.symm hP)
    have hSP : 0 < Real.sqrt (varSum left * varSum right) := Real.sqrt_pos.mpr hPpos
    have hden : (0:ℝ) < 512 * Real.sqrt (varSum left * varSum right) :=
      mul_pos (by norm_num) hSP
    rw [if_pos hden, if_neg hP]
    have hc : (512 * covSum left right) / (512 * Real.sqrt (varSum left * varSum right)) =
        covSum left right / Real.sqrt (varSum left * varSum right) :=
      mul_div_mul_left _ _ (by norm_num)
    rw [hc]
    have habs : |covSum left right| ≤ Real.sqrt (varSum left * varSum right) := by
      have h1 : Real.sqrt (covSum left right ^ 2) ≤
          Real.sqrt (varSum left * varSum right) :=
        Real.sqrt_le_sqrt (covSum_sq_le left right)
      rwa [Real.sqrt_sq_eq_abs] at h1
    obtain ⟨hlo, hhi⟩ := abs_le.mp habs
    have hc1 : covSum left right / Real.sqrt (varSum left * varSum right) ≤ 1 :=
      (div_le_one hSP).mpr hhi
    have hcm1 : -1 ≤ covSum left right / Real.sqrt (varSum left * varSum right) := by
      rw [le_div_iff₀ hSP]
      linarith
    rw [min_eq_right hc1, max_eq_right hcm1]
    exact ⟨rfl, fun h => absurd h hP, hcm1, hc1⟩

/-- Instantiation of `correlation_pearson` on the all-silent window,
whose variance product is zero. -/
theorem correlation_pearson_witness : correlationOf (fun _ => 0) (fun _ => 0) = 0 :=
  (correlation_pearson (fun _ => 0) (fun _ => 0)).2.1 (by simp [varSum, meanOf])

/-- Instantiation of `ringBuffer_roundtrip` on a concrete two-frame
sequence from the empty awake state. -/
theorem ringBuffer_roundtrip_witness :
    exAwakeCapture.writePos < BUF_CAP ∧ ([((1:ℚ), (2:ℚ)), (3, 4)]).length < BUF_CAP ∧
      getWaveformData (writeFrames exAwakeCapture [((1:ℚ), (2:ℚ)), (3, 4)]) 2 true =
        [1, 3] :=
  ⟨by decide, by decide,
    by simpa using
      (ringBuffer_roundtrip exAwakeCapture [(1, 2), (3, 4)] (by decide) (by decide)).1⟩

end Visualizer
